import Mathlib

/-!
A shallow embedding of the simple-job-runner core.

The embedding covers: the `Job` record and status enumeration (types.ts),
the filesystem storage adapter's operations (`createFSAdapter`: one JSON
file per job id, here a `List Job` keyed by `id`), the Kysely adapter's
mutating `UPDATE`s (`createKyselyAdapter`), the dispatcher `process`
from `packages/core/src/runner.ts` together with its retry loop, the
runner operations `add` and `recover`, and the event-emitter semantics
of `on`/`emit` (node:events).  Opaque data (`id`, `payload`, `result`)
is modelled as `Nat`; timestamps (`Date.now()`) are passed explicitly as
a `now` argument; a registered handler's behaviour is an oracle
`Nat → HOutcome` giving, for a payload, whether the invocation resolves
with a value or rejects with an error message.
-/

namespace JobRunner

/-- Job status enumeration from types.ts. -/
inductive JobStatus
  | pending
  | running
  | done
  | failed
deriving DecidableEq

/-- The `Job` record from types.ts.  `payload` and `result` are opaque
structured data, `id` is an opaque unique identifier. -/
structure Job where
  id : Nat
  name : String
  status : JobStatus
  payload : Nat
  attempts : Nat
  maxAttempts : Nat
  result : Option Nat
  error : Option String
  createdAt : Nat
  updatedAt : Nat
deriving DecidableEq

/-- The list of ids stored in a store. -/
def ids (st : List Job) : List Nat := st.map Job.id

/-- Well-formed store: ids are pairwise distinct (the fs adapter keys one
file per id, so a directory holds at most one record per id). -/
@[reducible] def WF (st : List Job) : Prop := (ids st).Nodup

/-- fs adapter `loadJob`: read the record stored under `id`, if any. -/
def loadJob (st : List Job) (id : Nat) : Option Job :=
  st.find? (fun k => decide (k.id = id))

/-- fs adapter `saveJob`: write the record for `j.id`, overwriting an
existing file for that id or creating a new one. -/
def saveJob (st : List Job) (j : Job) : List Job :=
  if st.any (fun k => decide (k.id = j.id)) then
    st.map (fun k => if k.id = j.id then j else k)
  else
    st ++ [j]

/-- fs adapter `markRunning`: load the job (erroring on a missing id),
set status `running`, refresh the timestamp, save. -/
def markRunning (st : List Job) (id now : Nat) : Except String (List Job) :=
  match loadJob st id with
  | none => .error ("Job not found: " ++ toString id)
  | some j => .ok (saveJob st { j with status := .running, updatedAt := now })

/-- fs adapter `markDone`: set status `done` and store the handler result. -/
def markDone (st : List Job) (id : Nat) (result : Option Nat) (now : Nat) :
    Except String (List Job) :=
  match loadJob st id with
  | none => .error ("Job not found: " ++ toString id)
  | some j => .ok (saveJob st { j with status := .done, result := result, updatedAt := now })

/-- fs adapter `markFailed`: set status `failed` and store the error message. -/
def markFailed (st : List Job) (id : Nat) (error : String) (now : Nat) :
    Except String (List Job) :=
  match loadJob st id with
  | none => .error ("Job not found: " ++ toString id)
  | some j => .ok (saveJob st { j with status := .failed, error := some error, updatedAt := now })

/-- fs adapter `incAttempts`: increment the stored attempts count. -/
def incAttempts (st : List Job) (id now : Nat) : Except String (List Job) :=
  match loadJob st id with
  | none => .error ("Job not found: " ++ toString id)
  | some j => .ok (saveJob st { j with attempts := j.attempts + 1, updatedAt := now })

/-- fs adapter `resetJobStatus`: force-set the status (used by recovery). -/
def resetJobStatus (st : List Job) (id : Nat) (s : JobStatus) (now : Nat) :
    Except String (List Job) :=
  match loadJob st id with
  | none => .error ("Job not found: " ++ toString id)
  | some j => .ok (saveJob st { j with status := s, updatedAt := now })

/-- fs adapter `findJobsByStatus`: all stored jobs with the given status. -/
def findJobsByStatus (st : List Job) (s : JobStatus) : List Job :=
  st.filter (fun k => decide (k.status = s))

/-- Outcome of one handler invocation: the promise resolves with a value
or rejects with an error message. -/
inductive HOutcome
  | success (v : Nat)
  | failure (msg : String)
deriving DecidableEq

/-- How one `process(job)` invocation ends: the `markDone` path completed;
a retry of the same in-memory job object was scheduled via
`setTimeout(() => process(job), delay)`; or `markFailed` ran. -/
inductive StepExit
  | finished
  | retry (delay : Nat) (next : Job)
  | failed
deriving DecidableEq

/-- Result of one `process(job)` invocation: the store after its storage
writes, the notifications it emitted (event name paired with the emitted
job object), and how it ended. -/
structure StepOut where
  store : List Job
  events : List (String × Job)
  exit : StepExit
deriving DecidableEq

/-- The error message thrown when `handlers[job.name]` is undefined. -/
def noHandlerMsg (name : String) : String :=
  "No handler registered for job type: " ++ name

/-- The `catch` block of `process` in runner.ts: increment the stored
attempts count, then consult the (never-refreshed) in-memory snapshot:
if `job.attempts < job.maxAttempts`, schedule a retry of the same
snapshot after `min(1000 * 2 ** job.attempts, 30000)` ms; otherwise mark
the job failed with the caught error's message and emit `failed` with
the snapshot.  `evs` are the notifications already emitted in the `try`
block. -/
def processCatch (st : List Job) (job : Job) (msg : String) (now : Nat)
    (evs : List (String × Job)) : Except String StepOut :=
  match incAttempts st job.id now with
  | .error e => .error e
  | .ok st1 =>
    if job.attempts < job.maxAttempts then
      .ok ⟨st1, evs, .retry (min (1000 * 2 ^ job.attempts) 30000) job⟩
    else
      match markFailed st1 job.id msg now with
      | .error e => .error e
      | .ok st2 => .ok ⟨st2, evs ++ [("failed", job)], .failed⟩

/-- One invocation of `process(job)` from runner.ts: mark running, emit
`start`, look up `handlers[job.name]` (treating a missing handler as a
thrown error), invoke the handler, and on success mark done and emit
`done` with `{...job, result}`.  Any error thrown in the `try` block —
including a storage error from `markRunning`/`markDone` — lands in
`processCatch`. -/
def processStep (handlers : String → Option (Nat → HOutcome)) (st : List Job)
    (job : Job) (now : Nat) : Except String StepOut :=
  match markRunning st job.id now with
  | .error e => processCatch st job e now []
  | .ok st1 =>
    let evs := [("start", job)]
    match handlers job.name with
    | none => processCatch st1 job (noHandlerMsg job.name) now evs
    | some handler =>
      match handler job.payload with
      | .failure msg => processCatch st1 job msg now evs
      | .success v =>
        match markDone st1 job.id (some v) now with
        | .error e => processCatch st1 job e now evs
        | .ok st2 =>
          .ok ⟨st2, evs ++ [("done", { job with result := some v })], .finished⟩

/-- A handler registry whose single registered behaviour rejects every
invocation with message `msg` (a handler that always fails). -/
def alwaysFail (msg : String) : String → Option (Nat → HOutcome) :=
  fun _ => some (fun _ => HOutcome.failure msg)

/-- Drive `n` successive `process` invocations of a job under an
always-failing handler, following the retry timer (each `retry` exit
re-invokes `process` on the job object it carries).  Returns the final
store, the list of scheduled backoff delays, and whether the job was
ever marked `failed`. -/
def runFail (msg : String) (now : Nat) : Nat → List Job → Job →
    Except String (List Job × List Nat × Bool)
  | 0, st, _ => .ok (st, [], false)
  | n + 1, st, job =>
    match processStep (alwaysFail msg) st job now with
    | .error e => .error e
    | .ok out =>
      match out.exit with
      | .finished => .ok (out.store, [], false)
      | .failed => .ok (out.store, [], true)
      | .retry d next =>
        match runFail msg now n out.store next with
        | .error e => .error e
        | .ok (st', ds, fl) => .ok (st', d :: ds, fl)

/-- The reset loop inside `recover` in runner.ts: for each job of the
`running` query result, `resetJobStatus(job.id, 'pending')` and emit a
`recover` notification carrying the (pre-reset) job snapshot.  A storage
error propagates out of `recover`. -/
def recoverLoop (now : Nat) : List Job → List Job →
    Except String (List Job × List (String × Job))
  | st, [] => .ok (st, [])
  | st, j :: rest =>
    match resetJobStatus st j.id .pending now with
    | .error e => .error e
    | .ok st1 =>
      match recoverLoop now st1 rest with
      | .error e => .error e
      | .ok (st', evs) => .ok (st', ("recover", j) :: evs)

/-- `recover` from runner.ts: query the `pending` and then the `running`
jobs, reset every running job to pending (emitting `recover` per job),
then hand `[...pendingJobs, ...runningJobs]` to the dispatcher via
`setImmediate` and return its length.  The result carries the store
after the resets, the emitted notifications, the list of job snapshots
handed to the dispatcher (processing deferred), and the returned count. -/
def recover (st : List Job) (now : Nat) :
    Except String (List Job × List (String × Job) × List Job × Nat) :=
  let pendingJobs := findJobsByStatus st .pending
  let runningJobs := findJobsByStatus st .running
  match recoverLoop now st runningJobs with
  | .error e => .error e
  | .ok (st1, evs) =>
    let jobsToRecover := pendingJobs ++ runningJobs
    .ok (st1, evs, jobsToRecover, jobsToRecover.length)

/-- fs adapter `create`: build a fresh record with status `pending`,
`attempts = 0` and the given `maxAttempts`, save it, and return it.  The
generated id (`generateId()` in the source) is passed in as `newId`. -/
def create (st : List Job) (name : String) (payload : Nat) (maxAttempts : Nat)
    (newId now : Nat) : Job × List Job :=
  let job : Job :=
    { id := newId, name := name, status := .pending, payload := payload,
      attempts := 0, maxAttempts := maxAttempts, result := none, error := none,
      createdAt := now, updatedAt := now }
  (job, saveJob st job)

/-- `add` from runner.ts: `maxAttempts = options.maxAttempts ?? 3`, create
the job in storage, schedule `process(job)` via `setImmediate` (fire and
forget), and return the created record.  The result is the returned job,
the store after the create, and the list of jobs handed to the dispatcher
(processing deferred until after `add` returns). -/
def runnerAdd (st : List Job) (name : String) (payload : Nat)
    (maxAttemptsOpt : Option Nat) (newId now : Nat) : Job × List Job × List Job :=
  let maxAttempts := maxAttemptsOpt.getD 3
  let p := create st name payload maxAttempts newId now
  (p.fst, p.snd, [p.fst])

/-- Kysely adapter `markRunning`: `UPDATE jobs SET status, updated_at WHERE
id = ?` — rows that match are updated; a missing id matches no row and the
promise still resolves. -/
def kyselyMarkRunning (st : List Job) (id now : Nat) : Except String (List Job) :=
  .ok (st.map fun k =>
    if k.id = id then { k with status := JobStatus.running, updatedAt := now } else k)

/-- Kysely adapter `markDone`: `UPDATE jobs SET status, result, updated_at
WHERE id = ?`. -/
def kyselyMarkDone (st : List Job) (id : Nat) (result : Option Nat) (now : Nat) :
    Except String (List Job) :=
  .ok (st.map fun k =>
    if k.id = id then { k with status := JobStatus.done, result := result, updatedAt := now }
    else k)

/-- Kysely adapter `markFailed`: `UPDATE jobs SET status, error, updated_at
WHERE id = ?`. -/
def kyselyMarkFailed (st : List Job) (id : Nat) (error : String) (now : Nat) :
    Except String (List Job) :=
  .ok (st.map fun k =>
    if k.id = id then { k with status := JobStatus.failed, error := some error, updatedAt := now }
    else k)

/-- Kysely adapter `incAttempts`: `UPDATE jobs SET attempts = attempts + 1,
updated_at WHERE id = ?`. -/
def kyselyIncAttempts (st : List Job) (id now : Nat) : Except String (List Job) :=
  .ok (st.map fun k =>
    if k.id = id then { k with attempts := k.attempts + 1, updatedAt := now } else k)

/-- The error component of a listener invocation result. -/
def errOf : Except String Unit → Option String
  | .ok _ => none
  | .error m => some m

/-- The runner's `EventEmitter` (node:events): per event name, the listener
array in registration order.  Listeners are identified by `Nat`; their
behaviour is supplied separately when a notification is delivered. -/
structure Emitter where
  listeners : String → List Nat

/-- `on(event, listener)` delegated to `EventEmitter.on`: append the
listener to the array for that event. -/
def emitterOn (em : Emitter) (event : String) (l : Nat) : Emitter :=
  ⟨fun e => if e = event then em.listeners e ++ [l] else em.listeners e⟩

/-- `EventEmitter.emit` (node:events): call the listeners synchronously in
registration order; emit does not catch listener exceptions, so a throwing
listener ends the loop and the error propagates to the emitter's caller.
Returns the listeners that were invoked and the propagated error, if any.
`beh l j` is what listener `l` does when called with job object `j`. -/
def runListeners (beh : Nat → Job → Except String Unit) (j : Job) :
    List Nat → List Nat × Option String
  | [] => ([], none)
  | l :: rest =>
    match beh l j with
    | .ok _ =>
      let p := runListeners beh j rest
      (l :: p.fst, p.snd)
    | .error msg => ([l], some msg)

/-- A listener behaviour where listener 0 throws and every other listener
returns normally. -/
def behBoom : Nat → Job → Except String Unit :=
  fun l _ => if l = 0 then .error "listener boom" else .ok ()

/-- A stored pending job (concrete test fixture). -/
def jobP : Job :=
  { id := 1, name := "p", status := .pending, payload := 5, attempts := 0,
    maxAttempts := 3, result := none, error := none, createdAt := 0, updatedAt := 0 }

/-- A stored running job whose attempts already equal its maxAttempts
(concrete test fixture, e.g. a job interrupted on its last attempt). -/
def jobR : Job :=
  { id := 2, name := "r", status := .running, payload := 6, attempts := 3,
    maxAttempts := 3, result := none, error := none, createdAt := 0, updatedAt := 0 }

/-- A store holding exactly one pending and one running job. -/
def stW : List Job := [jobP, jobR]

/-- A handler behaviour that rejects every payload with "nope". -/
def hNope : Nat → HOutcome := fun _ => HOutcome.failure "nope"

/-- A registry that returns `hNope` for every name. -/
def handlersNope : String → Option (Nat → HOutcome) := fun _ => some hNope

/-- A job as created by `add` with the default options: attempts 0,
maxAttempts 3, status pending. -/
def jobC : Job :=
  { id := 0, name := "work", status := .pending, payload := 0, attempts := 0,
    maxAttempts := 3, result := none, error := none, createdAt := 0, updatedAt := 0 }

/-- C1: refuted on the code.  After four consecutive handler failures of a
job created with `attempts = 0` and `maxAttempts = 3`, the stored attempts
count is 4 — strictly exceeding `maxAttempts` — and the job was never
marked `failed` (every invocation scheduled yet another retry): the retry
check in `process` reads the in-memory snapshot `job.attempts`, which
`incAttempts` never refreshes, so `0 < 3` holds forever. -/
theorem stored_attempts_exceed_maxAttempts :
    runFail "boom" 1 4 [jobC] jobC =
      .ok ([{ jobC with status := .running, attempts := 4, updatedAt := 1 }],
        [1000, 1000, 1000, 1000], false) ∧
    jobC.maxAttempts = 3 :=
  ⟨by rfl, by rfl⟩

/-- C2: refuted on the code.  For a job with `maxAttempts = 3` under an
always-failing handler, the scheduled retry delays are 1000 ms, 1000 ms,
1000 ms (each computed as `min(1000 * 2 ** 0, 30000)` from the stale
snapshot attempts value of 0) and the job is still being retried — not
the claimed 2000 ms, 4000 ms followed by `failed`. -/
theorem retry_delays_are_constant_1000ms :
    runFail "still failing" 2 3 [jobC] jobC =
      .ok ([{ jobC with status := .running, attempts := 3, updatedAt := 2 }],
        [1000, 1000, 1000], false) := by
  rfl

theorem wf_cons {k : Job} {rest : List Job} (hw : WF (k :: rest)) :
    k.id ∉ ids rest ∧ WF rest := by
  simpa [WF, ids] using hw

theorem any_id_true {st : List Job} {i : Nat} :
    (st.any fun k => decide (k.id = i)) = true ↔ i ∈ ids st := by
  simp [ids, List.mem_map]

theorem find?_pred_congr {p q : Job → Bool} (h : ∀ a, p a = q a)
    (st : List Job) : st.find? p = st.find? q := by
  have he : p = q := funext h
  rw [he]

theorem loadJob_of_mem {st : List Job} {j : Job} (hw : WF st) (hm : j ∈ st) :
    loadJob st j.id = some j := by
  induction st with
  | nil => cases hm
  | cons k rest ih =>
    rcases List.mem_cons.mp hm with h | h
    · subst h
      simp [loadJob]
    · obtain ⟨hnk, hw'⟩ := wf_cons hw
      have hk : ¬ k.id = j.id := by
        intro he
        apply hnk
        rw [he]
        exact List.mem_map_of_mem Job.id h
      unfold loadJob at *
      rw [List.find?_cons_of_neg _ (by simpa using hk)]
      exact ih hw' h

theorem loadJob_some_mem {st : List Job} {i : Nat} {j : Job}
    (h : loadJob st i = some j) : j ∈ st ∧ j.id = i := by
  unfold loadJob at h
  refine ⟨List.mem_of_find?_eq_some h, ?_⟩
  simpa using List.find?_some h

theorem mem_id_inj {st : List Job} (hw : WF st) {a b : Job} (ha : a ∈ st)
    (hb : b ∈ st) (h : a.id = b.id) : a = b := by
  induction st with
  | nil => cases ha
  | cons k rest ih =>
    obtain ⟨hnk, hw'⟩ := wf_cons hw
    rcases List.mem_cons.mp ha with ha' | ha' <;> rcases List.mem_cons.mp hb with hb' | hb'
    · rw [ha', hb']
    · exfalso
      apply hnk
      have hb2 : b.id ∈ ids rest := List.mem_map_of_mem Job.id hb'
      rw [ha'] at h
      rw [h]
      exact hb2
    · exfalso
      apply hnk
      have ha2 : a.id ∈ ids rest := List.mem_map_of_mem Job.id ha'
      rw [hb'] at h
      rw [← h]
      exact ha2
    · exact ih hw' ha' hb'

theorem loadJob_saveJob_same (st : List Job) (r : Job) :
    loadJob (saveJob st r) r.id = some r := by
  unfold loadJob saveJob
  by_cases h : (st.any fun k => decide (k.id = r.id)) = true
  · rw [if_pos h]
    rw [List.find?_map]
    rcases List.any_eq_true.mp h with ⟨k, hk, hke⟩
    have : st.find? ((fun k => decide (k.id = r.id)) ∘ fun k => if k.id = r.id then r else k) =
        st.find? (fun k => decide (k.id = r.id)) := by
      apply find?_pred_congr
      intro a
      by_cases ha : a.id = r.id <;> simp [ha]
    rw [this]
    have hsome : (st.find? fun k => decide (k.id = r.id)).isSome := by
      rw [List.find?_isSome]
      exact ⟨k, hk, hke⟩
    rcases Option.isSome_iff_exists.mp hsome with ⟨a, ha⟩
    rw [ha]
    have := List.find?_some ha
    have haid : a.id = r.id := by simpa using this
    simp [haid]
  · rw [if_neg h]
    rw [List.find?_append]
    have hf : st.find? (fun k => decide (k.id = r.id)) = none := by
      rw [List.find?_eq_none]
      intro x hx hpx
      apply h
      exact List.any_eq_true.mpr ⟨x, hx, hpx⟩
    rw [hf]
    simp

theorem loadJob_saveJob_other (st : List Job) (r : Job) {q : Nat} (hq : ¬ q = r.id) :
    loadJob (saveJob st r) q = loadJob st q := by
  unfold loadJob saveJob
  by_cases h : (st.any fun k => decide (k.id = r.id)) = true
  · rw [if_pos h, List.find?_map]
    have hpc : st.find? ((fun k => decide (k.id = q)) ∘ fun k => if k.id = r.id then r else k) =
        st.find? (fun k => decide (k.id = q)) := by
      apply find?_pred_congr
      intro a
      by_cases ha : a.id = r.id
      · have h1 : ¬ r.id = q := fun he => hq he.symm
        have h2 : ¬ a.id = q := by rw [ha]; exact h1
        simp [Function.comp, ha, h1, h2]
      · simp [Function.comp, ha]
    rw [hpc]
    rcases he : st.find? (fun k => decide (k.id = q)) with _ | a
    · rw [he]
      rfl
    · rw [he]
      have ha : a.id = q := by simpa using List.find?_some he
      have han : ¬ a.id = r.id := by rw [ha]; exact hq
      simp [han]
  · rw [if_neg h, List.find?_append]
    have h1 : ¬ r.id = q := fun he => hq he.symm
    have hr1 : [r].find? (fun k => decide (k.id = q)) = none := by
      simp [h1]
    rw [hr1]
    simp

theorem ids_map_id_preserving {st : List Job} (f : Job → Job)
    (hf : ∀ k, (f k).id = k.id) : ids (st.map f) = ids st := by
  induction st with
  | nil => rfl
  | cons k rest ih =>
    simp only [ids, List.map_cons] at *
    rw [hf k, ih]

theorem wf_saveJob {st : List Job} (hw : WF st) (r : Job) : WF (saveJob st r) := by
  unfold saveJob
  by_cases h : (st.any fun k => decide (k.id = r.id)) = true
  · rw [if_pos h]
    unfold WF
    rw [ids_map_id_preserving (fun k => if k.id = r.id then r else k)
      (by intro k; by_cases hk : k.id = r.id <;> simp [hk])]
    exact hw
  · rw [if_neg h]
    have hnot : r.id ∉ ids st := by
      intro hmem
      exact h (any_id_true.mpr hmem)
    unfold WF
    unfold ids
    rw [List.map_append]
    apply List.Nodup.append hw (List.nodup_singleton r.id)
    intro a ha hb
    rcases List.mem_singleton.mp hb with h'
    rw [h'] at ha
    exact hnot ha

theorem loadJob_map_of_mem {st : List Job} {j : Job} (f : Job → Job)
    (hf : ∀ k, (f k).id = k.id) (hw : WF st) (hm : j ∈ st) :
    loadJob (st.map f) j.id = some (f j) := by
  unfold loadJob
  rw [List.find?_map]
  have hpc : st.find? ((fun k => decide (k.id = j.id)) ∘ f) =
      st.find? (fun k => decide (k.id = j.id)) := by
    apply find?_pred_congr
    intro a
    simp [Function.comp, hf a]
  rw [hpc]
  have := loadJob_of_mem hw hm
  unfold loadJob at this
  rw [this]
  rfl

/-- C9: dispatching a job whose name has no registered handler takes
exactly the same path as a registered handler whose invocation rejects
with the message "No handler registered for job type: <name>": the
resulting store, notifications and retry/failure behaviour coincide. -/
theorem missing_handler_is_handler_failure
    (handlers : String → Option (Nat → HOutcome)) (st : List Job) (job : Job)
    (now : Nat) (h : handlers job.name = none) :
    processStep handlers st job now =
      processStep
        (fun n => if n = job.name
          then some (fun _ => HOutcome.failure (noHandlerMsg job.name))
          else handlers n) st job now := by
  unfold processStep
  cases hmr : markRunning st job.id now with
  | error e => rfl
  | ok st1 =>
    rw [h]
    simp

/-- Witness for C9 at a concrete registry, store and job. -/
theorem missing_handler_is_handler_failure_witness :
    (fun _ : String => (none : Option (Nat → HOutcome))) jobP.name = none ∧
    processStep (fun _ => none) [jobP] jobP 4 =
      processStep
        (fun n => if n = jobP.name
          then some (fun _ => HOutcome.failure (noHandlerMsg jobP.name))
          else (fun _ => none) n) [jobP] jobP 4 :=
  ⟨rfl, missing_handler_is_handler_failure (fun _ => none) [jobP] jobP 4 rfl⟩

/-- C10: the `done` and `failed` notifications carry the in-memory
snapshot captured at dispatch, not the persisted final record.  On
success the emitted object is `{...job, result}` — the handler result
attached to the pre-dispatch status and attempts — while storage holds
status `done`.  On a failure that ends the job, the emitted object is
the snapshot itself (so its `error` field is whatever the snapshot had,
none for a dispatched job, and its `attempts` is the pre-increment
value) while storage holds `attempts + 1`, status `failed` and the
error message. -/
theorem terminal_notifications_carry_predispatch_snapshot
    (handlers : String → Option (Nat → HOutcome)) (h : Nat → HOutcome)
    (st : List Job) (job : Job) (now v : Nat) (msg : String)
    (hload : loadJob st job.id = some job)
    (hhand : handlers job.name = some h) :
    (h job.payload = HOutcome.success v →
      ∃ st2, processStep handlers st job now =
          .ok ⟨st2, [("start", job), ("done", { job with result := some v })], .finished⟩ ∧
        loadJob st2 job.id =
          some { job with status := .done, result := some v, updatedAt := now }) ∧
    (h job.payload = HOutcome.failure msg → ¬ job.attempts < job.maxAttempts →
      ∃ st2, processStep handlers st job now =
          .ok ⟨st2, [("start", job), ("failed", job)], .failed⟩ ∧
        loadJob st2 job.id =
          some { job with status := .failed, attempts := job.attempts + 1, error := some msg, updatedAt := now }) := by
  have hmr : markRunning st job.id now =
      .ok (saveJob st { job with status := .running, updatedAt := now }) := by
    unfold markRunning
    rw [hload]
  have hl1 : loadJob (saveJob st { job with status := .running, updatedAt := now }) job.id =
      some { job with status := .running, updatedAt := now } :=
    loadJob_saveJob_same st _
  constructor
  · intro hs
    have hmd : markDone (saveJob st { job with status := .running, updatedAt := now })
        job.id (some v) now =
        .ok (saveJob (saveJob st { job with status := .running, updatedAt := now })
          { job with status := .done, result := some v, updatedAt := now }) := by
      unfold markDone
      rw [hl1]
    refine ⟨saveJob (saveJob st { job with status := .running, updatedAt := now })
      { job with status := .done, result := some v, updatedAt := now }, ?_, ?_⟩
    · simp only [processStep, hmr, hhand, hs, hmd]
      rfl
    · exact loadJob_saveJob_same _ _
  · intro hf hnl
    have hinc : incAttempts (saveJob st { job with status := .running, updatedAt := now })
        job.id now =
        .ok (saveJob (saveJob st { job with status := .running, updatedAt := now })
          { job with status := .running, attempts := job.attempts + 1, updatedAt := now }) := by
      unfold incAttempts
      rw [hl1]
    have hl2 : loadJob (saveJob (saveJob st { job with status := .running, updatedAt := now })
        { job with status := .running, attempts := job.attempts + 1, updatedAt := now }) job.id =
        some { job with status := .running, attempts := job.attempts + 1, updatedAt := now } :=
      loadJob_saveJob_same _ _
    have hmf : markFailed
        (saveJob (saveJob st { job with status := .running, updatedAt := now })
          { job with status := .running, attempts := job.attempts + 1, updatedAt := now })
        job.id msg now =
        .ok (saveJob
          (saveJob (saveJob st { job with status := .running, updatedAt := now })
            { job with status := .running, attempts := job.attempts + 1, updatedAt := now })
          { job with status := .failed, attempts := job.attempts + 1, error := some msg, updatedAt := now }) := by
      unfold markFailed
      rw [hl2]
    refine ⟨saveJob
      (saveJob (saveJob st { job with status := .running, updatedAt := now })
        { job with status := .running, attempts := job.attempts + 1, updatedAt := now })
      { job with status := .failed, attempts := job.attempts + 1, error := some msg, updatedAt := now }, ?_, ?_⟩
    · simp only [processStep, hmr, hhand, hf, processCatch, hinc, if_neg hnl, hmf]
      rfl
    · exact loadJob_saveJob_same _ _

theorem saveJob_of_mem (st : List Job) (r : Job) (h : r.id ∈ ids st) :
    saveJob st r = st.map (fun k => if k.id = r.id then r else k) := by
  unfold saveJob
  rw [if_pos (any_id_true.mpr h)]

theorem saveJob_append {st : List Job} {r : Job} (h : r.id ∉ ids st) :
    saveJob st r = st ++ [r] := by
  unfold saveJob
  rw [if_neg (fun hc => h (any_id_true.mp hc))]

theorem map_mem_congr {l : List Job} {f g : Job → Job} (h : ∀ a ∈ l, f a = g a) :
    l.map f = l.map g :=
  List.map_congr_left h

theorem recoverLoop_ok (now : Nat) :
    ∀ (js st : List Job), WF st →
      (∀ j ∈ js, loadJob st j.id = some j) →
      (js.map Job.id).Nodup →
      recoverLoop now st js =
        .ok (st.map (fun k => if k.id ∈ js.map Job.id
              then { k with status := JobStatus.pending, updatedAt := now } else k),
          js.map (fun j => ("recover", j)))
  | [], st, _, _, _ => by
    simp [recoverLoop]
  | j :: rest, st, hw, hld, hnd => by
    have hj : loadJob st j.id = some j := hld j (List.mem_cons_self j rest)
    have hjm : j ∈ st := (loadJob_some_mem hj).1
    have hjid : j.id ∈ ids st := List.mem_map_of_mem Job.id hjm
    have hrst : resetJobStatus st j.id .pending now =
        .ok (saveJob st { j with status := JobStatus.pending, updatedAt := now }) := by
      unfold resetJobStatus
      rw [hj]
    have hnotin : j.id ∉ rest.map Job.id := (List.nodup_cons.mp hnd).1
    have hnd' : (rest.map Job.id).Nodup := (List.nodup_cons.mp hnd).2
    have hw1 : WF (saveJob st { j with status := JobStatus.pending, updatedAt := now }) :=
      wf_saveJob hw _
    have hld1 : ∀ j' ∈ rest,
        loadJob (saveJob st { j with status := JobStatus.pending, updatedAt := now }) j'.id =
          some j' := by
      intro j' hj'
      have hne : ¬ j'.id = j.id := by
        intro he
        apply hnotin
        rw [← he]
        exact List.mem_map_of_mem Job.id hj'
      rw [loadJob_saveJob_other st { j with status := JobStatus.pending, updatedAt := now } hne]
      exact hld j' (List.mem_cons_of_mem j hj')
    have ih := recoverLoop_ok now rest
      (saveJob st { j with status := JobStatus.pending, updatedAt := now }) hw1 hld1 hnd'
    have hstore :
        (saveJob st { j with status := JobStatus.pending, updatedAt := now }).map
            (fun k => if k.id ∈ rest.map Job.id
              then { k with status := JobStatus.pending, updatedAt := now } else k) =
          st.map (fun k => if k.id ∈ (j :: rest).map Job.id
              then { k with status := JobStatus.pending, updatedAt := now } else k) := by
      rw [saveJob_of_mem st { j with status := JobStatus.pending, updatedAt := now } hjid,
        List.map_map]
      apply map_mem_congr
      intro k hk
      simp only [Function.comp_apply]
      by_cases hkj : k.id = j.id
      · have hkeq : k = j := mem_id_inj hw hk hjm hkj
        have hin : k.id ∈ (j :: rest).map Job.id := by
          rw [List.map_cons, hkj]
          exact List.mem_cons_self j.id (rest.map Job.id)
        have hkj' : k.id = ({ j with status := JobStatus.pending, updatedAt := now } : Job).id :=
          hkj
        rw [if_pos hkj']
        have hnr : ¬ ({ j with status := JobStatus.pending, updatedAt := now } : Job).id ∈
            rest.map Job.id := fun hc => hnotin hc
        rw [if_neg hnr, if_pos hin, hkeq]
      · have hkj' : ¬ k.id = ({ j with status := JobStatus.pending, updatedAt := now } : Job).id :=
          hkj
        rw [if_neg hkj']
        have hiff : (k.id ∈ (j :: rest).map Job.id) ↔ (k.id ∈ rest.map Job.id) := by
          rw [List.map_cons, List.mem_cons]
          exact ⟨fun hc => hc.resolve_left hkj, fun hc => Or.inr hc⟩
        by_cases hkr : k.id ∈ rest.map Job.id
        · rw [if_pos hkr, if_pos (hiff.mpr hkr)]
        · rw [if_neg hkr, if_neg (fun hc => hkr (hiff.mp hc))]
    unfold recoverLoop
    rw [hrst]
    simp only [ih, hstore, List.map_cons]

theorem mem_running_ids {st : List Job} (hw : WF st) {k : Job} (hk : k ∈ st) :
    (k.id ∈ (findJobsByStatus st .running).map Job.id) ↔
      k.status = JobStatus.running := by
  constructor
  · intro h
    rcases List.mem_map.mp h with ⟨k', hk', he⟩
    have hk'm : k' ∈ st := (List.mem_filter.mp hk').1
    have hst : k'.status = JobStatus.running := by
      simpa using (List.mem_filter.mp hk').2
    rw [← mem_id_inj hw hk'm hk he]
    exact hst
  · intro h
    apply List.mem_map_of_mem
    exact List.mem_filter.mpr ⟨hk, by simp [h]⟩

theorem recover_eq {st : List Job} (now : Nat) (hw : WF st) :
    recover st now = .ok
      (st.map (fun k => if k.status = JobStatus.running
          then { k with status := JobStatus.pending, updatedAt := now } else k),
        (findJobsByStatus st .running).map (fun j => ("recover", j)),
        findJobsByStatus st .pending ++ findJobsByStatus st .running,
        (findJobsByStatus st .pending ++ findJobsByStatus st .running).length) := by
  have hld : ∀ j ∈ findJobsByStatus st .running, loadJob st j.id = some j :=
    fun j hj => loadJob_of_mem hw (List.mem_filter.mp hj).1
  have hnd : ((findJobsByStatus st .running).map Job.id).Nodup :=
    ((List.filter_sublist st).map Job.id).nodup hw
  have hloop := recoverLoop_ok now (findJobsByStatus st .running) st hw hld hnd
  have hstore : st.map (fun k => if k.id ∈ (findJobsByStatus st .running).map Job.id
        then { k with status := JobStatus.pending, updatedAt := now } else k) =
      st.map (fun k => if k.status = JobStatus.running
        then { k with status := JobStatus.pending, updatedAt := now } else k) := by
    apply map_mem_congr
    intro k hk
    by_cases hkr : k.status = JobStatus.running
    · rw [if_pos ((mem_running_ids hw hk).mpr hkr), if_pos hkr]
    · rw [if_neg (fun hc => hkr ((mem_running_ids hw hk).mp hc)), if_neg hkr]
  unfold recover
  simp only [hloop, hstore]

/-- C3: `recover` resets every stored `running` job to `pending` (one
`recover` notification per such job) before handing out any job, then
hands the combined pending-and-running snapshot list to the dispatcher
(asynchronously; the list is returned unprocessed) and returns the size
of that combined set. -/
theorem recover_resets_running_then_dispatches_all (st : List Job) (now : Nat)
    (hw : WF st) :
    recover st now = .ok
      (st.map (fun k => if k.status = JobStatus.running
          then { k with status := JobStatus.pending, updatedAt := now } else k),
        (findJobsByStatus st .running).map (fun j => ("recover", j)),
        findJobsByStatus st .pending ++ findJobsByStatus st .running,
        (findJobsByStatus st .pending).length + (findJobsByStatus st .running).length) := by
  rw [recover_eq now hw, List.length_append]

/-- Witness for C3 on a store holding exactly one pending and one running
job: the running one is reset, both are dispatched, and the count is 2. -/
theorem recover_resets_running_then_dispatches_all_witness :
    WF stW ∧
    recover stW 7 = .ok
      (stW.map (fun k => if k.status = JobStatus.running
          then { k with status := JobStatus.pending, updatedAt := 7 } else k),
        (findJobsByStatus stW .running).map (fun j => ("recover", j)),
        findJobsByStatus stW .pending ++ findJobsByStatus stW .running,
        (findJobsByStatus stW .pending).length + (findJobsByStatus stW .running).length) ∧
    (findJobsByStatus stW .pending).length + (findJobsByStatus stW .running).length = 2 :=
  ⟨by decide, recover_resets_running_then_dispatches_all stW 7 (by decide), by decide⟩

/-- C4: neither `add` nor `recover` fails because of anything a handler
will later do.  `recover` completes normally on every well-formed store
(its only failure channel, a storage error from a reset, is unreachable
because the reset jobs come from the store itself), and `add` returns
normally with handler execution deferred to the dispatch queue it hands
back — no handler is consulted before either returns. -/
theorem add_and_recover_return_normally (st : List Job) (now : Nat) (hw : WF st) :
    (recover st now).isOk = true ∧
    ∀ (name : String) (payload : Nat) (opts : Option Nat) (newId : Nat),
      (runnerAdd st name payload opts newId now).snd.snd =
        [(runnerAdd st name payload opts newId now).fst] := by
  refine ⟨?_, fun _ _ _ _ => rfl⟩
  rw [recover_eq now hw]
  rfl

/-- Witness for C4 at a concrete store. -/
theorem add_and_recover_return_normally_witness :
    WF stW ∧
    ((recover stW 8).isOk = true ∧
      ∀ (name : String) (payload : Nat) (opts : Option Nat) (newId : Nat),
        (runnerAdd stW name payload opts newId 8).snd.snd =
          [(runnerAdd stW name payload opts newId 8).fst]) :=
  ⟨by decide, add_and_recover_return_normally stW 8 (by decide)⟩

/-- C5: `add` returns a record with status `pending`, attempts 0, the
freshly assigned id, `maxAttempts = options.maxAttempts ?? 3`, and no
result or error; the store gains exactly that record and the handler
dispatch is deferred to the queue returned alongside. -/
theorem add_returns_fresh_pending_record (st : List Job) (name : String)
    (payload : Nat) (opts : Option Nat) (newId now : Nat) (h : newId ∉ ids st) :
    (runnerAdd st name payload opts newId now).fst.status = JobStatus.pending ∧
    (runnerAdd st name payload opts newId now).fst.attempts = 0 ∧
    (runnerAdd st name payload opts newId now).fst.id = newId ∧
    (runnerAdd st name payload opts newId now).fst.maxAttempts = opts.getD 3 ∧
    (runnerAdd st name payload opts newId now).fst.result = none ∧
    (runnerAdd st name payload opts newId now).fst.error = none ∧
    (runnerAdd st name payload opts newId now).snd.fst =
      st ++ [(runnerAdd st name payload opts newId now).fst] ∧
    (runnerAdd st name payload opts newId now).snd.snd =
      [(runnerAdd st name payload opts newId now).fst] := by
  refine ⟨rfl, rfl, rfl, rfl, rfl, rfl, ?_, rfl⟩
  exact saveJob_append h

/-- Witness for C5: adding with an explicit maxAttempts of 5 to the
two-job store. -/
theorem add_returns_fresh_pending_record_witness :
    (3 ∉ ids stW) ∧
    ((runnerAdd stW "job" 11 (some 5) 3 9).fst.status = JobStatus.pending ∧
     (runnerAdd stW "job" 11 (some 5) 3 9).fst.attempts = 0 ∧
     (runnerAdd stW "job" 11 (some 5) 3 9).fst.id = 3 ∧
     (runnerAdd stW "job" 11 (some 5) 3 9).fst.maxAttempts = (some 5).getD 3 ∧
     (runnerAdd stW "job" 11 (some 5) 3 9).fst.result = none ∧
     (runnerAdd stW "job" 11 (some 5) 3 9).fst.error = none ∧
     (runnerAdd stW "job" 11 (some 5) 3 9).snd.fst =
       stW ++ [(runnerAdd stW "job" 11 (some 5) 3 9).fst] ∧
     (runnerAdd stW "job" 11 (some 5) 3 9).snd.snd =
       [(runnerAdd stW "job" 11 (some 5) 3 9).fst]) :=
  ⟨by decide, add_returns_fresh_pending_record stW "job" 11 (some 5) 3 9 (by decide)⟩

/-- C6: the recovery-only `running → pending` reset changes nothing but
the status and the timestamp: the reset happens for every running job
unconditionally (no hypothesis on `attempts` vs `maxAttempts` is
needed), `attempts` is not incremented and every other field is
unchanged. -/
theorem recovery_reset_changes_only_status (st : List Job) (now : Nat) (j : Job)
    (hw : WF st) (hm : j ∈ st) (hr : j.status = JobStatus.running) :
    ∃ st' evs dl n, recover st now = .ok (st', evs, dl, n) ∧
      ∃ r, loadJob st' j.id = some r ∧
        r.status = JobStatus.pending ∧ r.attempts = j.attempts ∧
        r.maxAttempts = j.maxAttempts ∧ r.id = j.id ∧ r.name = j.name ∧
        r.payload = j.payload ∧ r.result = j.result ∧ r.error = j.error ∧
        r.createdAt = j.createdAt ∧ r.updatedAt = now := by
  refine ⟨_, _, _, _, recover_eq now hw, ?_⟩
  have hfid : ∀ k : Job, ((fun k => if k.status = JobStatus.running
      then { k with status := JobStatus.pending, updatedAt := now } else k) k).id = k.id := by
    intro k
    by_cases hk : k.status = JobStatus.running <;> simp [hk]
  have hl := loadJob_map_of_mem (fun k => if k.status = JobStatus.running
    then { k with status := JobStatus.pending, updatedAt := now } else k) hfid hw hm
  simp only [hr, if_true] at hl
  exact ⟨_, hl, rfl, rfl, rfl, rfl, rfl, rfl, rfl, rfl, rfl, rfl⟩

/-- Witness for C6 on a running job whose attempts already equal its
maxAttempts — the reset still happens and leaves attempts untouched. -/
theorem recovery_reset_changes_only_status_witness :
    WF stW ∧ jobR ∈ stW ∧ jobR.status = JobStatus.running ∧
    (∃ st' evs dl n, recover stW 7 = .ok (st', evs, dl, n) ∧
      ∃ r, loadJob st' jobR.id = some r ∧
        r.status = JobStatus.pending ∧ r.attempts = jobR.attempts ∧
        r.maxAttempts = jobR.maxAttempts ∧ r.id = jobR.id ∧ r.name = jobR.name ∧
        r.payload = jobR.payload ∧ r.result = jobR.result ∧ r.error = jobR.error ∧
        r.createdAt = jobR.createdAt ∧ r.updatedAt = 7) :=
  ⟨by decide, by decide, by decide,
    recovery_reset_changes_only_status stW 7 jobR (by decide) (by decide) (by decide)⟩

/-- C7 counterexample: two listeners are registered for `done` in order
[0, 1]; listener 0 throws, and listener 1 — although registered — is
never invoked, because node's `emit` does not catch listener errors.
This refutes the claim that a listener error does not prevent the
remaining listeners from running. -/
theorem listener_error_stops_remaining_listeners :
    (emitterOn (emitterOn ⟨fun _ => []⟩ "done" 0) "done" 1).listeners "done" = [0, 1] ∧
    runListeners behBoom jobC [0, 1] = ([0], some "listener boom") ∧
    1 ∉ (runListeners behBoom jobC [0, 1]).fst :=
  ⟨by decide, by decide, by decide⟩

/-- C7 amended: `on` appends the listener, and an emitted notification
invokes the listeners in registration order up to and including the
first listener that throws; the thrown error propagates (the remaining
listeners do not run).  When no listener throws, all run in order. -/
theorem listeners_in_order_until_first_error
    (beh : Nat → Job → Except String Unit) (j : Job) (em : Emitter)
    (e : String) (l : Nat) (ls : List Nat) :
    (emitterOn em e l).listeners e = em.listeners e ++ [l] ∧
    (runListeners beh j ls).fst =
      ls.takeWhile (fun x => (beh x j).isOk) ++
        (ls.dropWhile (fun x => (beh x j).isOk)).take 1 ∧
    (runListeners beh j ls).snd =
      ((ls.dropWhile (fun x => (beh x j).isOk)).head?).bind (fun x => errOf (beh x j)) := by
  refine ⟨by simp [emitterOn], ?_, ?_⟩
  · induction ls with
    | nil => rfl
    | cons a rest ih =>
      cases hb : beh a j with
      | ok u =>
        simp [runListeners, hb, List.takeWhile_cons, List.dropWhile_cons, Except.isOk,
          Except.toBool, ih]
      | error msg =>
        simp [runListeners, hb, List.takeWhile_cons, List.dropWhile_cons, Except.isOk,
          Except.toBool]
  · induction ls with
    | nil => rfl
    | cons a rest ih =>
      cases hb : beh a j with
      | ok u =>
        simp [runListeners, hb, List.dropWhile_cons, Except.isOk, Except.toBool, ih]
      | error msg =>
        simp [runListeners, hb, List.dropWhile_cons, Except.isOk, Except.toBool, errOf]

/-- C8 counterexample: the Kysely adapter's `incAttempts` on an id that is
not in the store completes without any error (the UPDATE simply matches
zero rows), refuting the claim that every mutating storage-adapter
operation signals "job not found" for a missing id. -/
theorem kysely_incAttempts_missing_id_silent :
    loadJob [] 7 = none ∧ kyselyIncAttempts [] 7 0 = .ok [] :=
  ⟨rfl, rfl⟩

/-- C8 amended: on a missing id, the filesystem adapter's mutating
operations signal "Job not found: <id>", but the Kysely adapter's
mutating operations complete silently and leave the store unchanged. -/
theorem missing_id_fs_errors_kysely_silent (st : List Job) (id now : Nat)
    (r : Option Nat) (msg : String) (h : loadJob st id = none) :
    markRunning st id now = .error ("Job not found: " ++ toString id) ∧
    markDone st id r now = .error ("Job not found: " ++ toString id) ∧
    markFailed st id msg now = .error ("Job not found: " ++ toString id) ∧
    incAttempts st id now = .error ("Job not found: " ++ toString id) ∧
    resetJobStatus st id JobStatus.pending now = .error ("Job not found: " ++ toString id) ∧
    kyselyMarkRunning st id now = .ok st ∧
    kyselyMarkDone st id r now = .ok st ∧
    kyselyMarkFailed st id msg now = .ok st ∧
    kyselyIncAttempts st id now = .ok st := by
  have hne : ∀ k ∈ st, ¬ k.id = id := by
    intro k hk he
    have := List.find?_eq_none.mp h k hk
    simp [he] at this
  have hmap : ∀ g : Job → Job, (st.map fun k => if k.id = id then g k else k) = st := by
    intro g
    have : (st.map fun k => if k.id = id then g k else k) = st.map (fun k => k) := by
      apply map_mem_congr
      intro a ha
      rw [if_neg (hne a ha)]
    rw [this, List.map_id']
  refine ⟨?_, ?_, ?_, ?_, ?_, ?_, ?_, ?_, ?_⟩
  · unfold markRunning
    rw [h]
  · unfold markDone
    rw [h]
  · unfold markFailed
    rw [h]
  · unfold incAttempts
    rw [h]
  · unfold resetJobStatus
    rw [h]
  · exact congrArg Except.ok (hmap _)
  · exact congrArg Except.ok (hmap _)
  · exact congrArg Except.ok (hmap _)
  · exact congrArg Except.ok (hmap _)

/-- Witness for the C8 amended theorem at a concrete store and id. -/
theorem missing_id_fs_errors_kysely_silent_witness :
    loadJob stW 9 = none ∧
    (markRunning stW 9 5 = .error ("Job not found: " ++ toString 9) ∧
     markDone stW 9 (some 1) 5 = .error ("Job not found: " ++ toString 9) ∧
     markFailed stW 9 "e" 5 = .error ("Job not found: " ++ toString 9) ∧
     incAttempts stW 9 5 = .error ("Job not found: " ++ toString 9) ∧
     resetJobStatus stW 9 JobStatus.pending 5 = .error ("Job not found: " ++ toString 9) ∧
     kyselyMarkRunning stW 9 5 = .ok stW ∧
     kyselyMarkDone stW 9 (some 1) 5 = .ok stW ∧
     kyselyMarkFailed stW 9 "e" 5 = .ok stW ∧
     kyselyIncAttempts stW 9 5 = .ok stW) :=
  ⟨by decide, missing_id_fs_errors_kysely_silent stW 9 5 (some 1) "e" (by decide)⟩

/-- Witness for C10 on the running fixture job, whose attempts have
reached maxAttempts, under an always-failing handler. -/
theorem terminal_notifications_witness :
    loadJob stW jobR.id = some jobR ∧
    handlersNope jobR.name = some hNope ∧
    ((hNope jobR.payload = HOutcome.success 7 →
      ∃ st2, processStep handlersNope stW jobR 9 =
          .ok ⟨st2, [("start", jobR), ("done", { jobR with result := some 7 })], .finished⟩ ∧
        loadJob st2 jobR.id =
          some { jobR with status := .done, result := some 7, updatedAt := 9 }) ∧
     (hNope jobR.payload = HOutcome.failure "nope" → ¬ jobR.attempts < jobR.maxAttempts →
      ∃ st2, processStep handlersNope stW jobR 9 =
          .ok ⟨st2, [("start", jobR), ("failed", jobR)], .failed⟩ ∧
        loadJob st2 jobR.id =
          some { jobR with status := .failed, attempts := jobR.attempts + 1, error := some "nope", updatedAt := 9 })) :=
  ⟨by decide, rfl,
    terminal_notifications_carry_predispatch_snapshot handlersNope hNope stW jobR 9 7 "nope"
      (by decide) rfl⟩

end JobRunner
